import Mathlib

/-!
Shallow embedding of the real-time recognition feedback loop of the
Sinhala Sign Language LMS (`src/App/script.js`): the label-mapping
collaborator, the prediction Stability Gate, the Session Progress
Tracker (correct/incorrect handlers, mastery, navigation) and the
connection manager / frame sampler lifecycle.

JS numbers used as confidences are modelled by `ℚ` (the comparisons in
the source are exact at the values involved); timestamps
(`new Date().toISOString()`) by an abstract `Nat` parameter `now`;
DOM/audio side effects are not part of the state.  String literals are
taken verbatim from the source file.
-/

namespace SLLMS

/-- The fixed catalog of target symbols, `const letters` (script.js line 2). -/
def letters : List String :=
  ["à¶…", "à¶†", "à¶‡", "à¶ˆ", "à¶‘", "à¶’", "à¶‰", "à¶Š", "à¶‹", "à¶Œ"]

/-- `const THRESHOLD = 0.6` (script.js line 3). -/
def THRESHOLD : ℚ := 0.6

/-- `const REQUIRED_ATTEMPTS = 3` (script.js line 4). -/
def REQUIRED_ATTEMPTS : Nat := 3

/-- `const englishToSinhala = {...}` (script.js lines 8-20): the mapping
from the service's raw label vocabulary to the catalog's display
vocabulary, as an association list in source order. -/
def englishToSinhala : List (String × String) :=
  [("a_", "à¶…"), ("aa_", "à¶†"), ("ae_", "à¶‡"), ("aee_", "à¶ˆ"),
   ("e_", "à¶‘"), ("ee_", "à¶’"), ("i_", "à¶‰"), ("ii_", "à¶Š"),
   ("u_", "à¶‹"), ("uu_", "à¶Œ")]

/-- `englishToSinhala[data.predicted_action] || data.predicted_action`
(script.js line 289): map a raw label to its display form, falling back
to the raw label when unmapped. -/
def toDisplay (raw : String) : String :=
  (englishToSinhala.lookup raw).getD raw

/-- Per-symbol statistics record, one entry of `letterStats`
(script.js lines 39-45). -/
structure LetterStat where
  attempts : Nat
  successes : Nat
  lastCompleted : Option Nat
deriving Repr, DecidableEq

/-- The mutable session state of script.js (lines 22-36): navigation
index, round counters, global counters, stability state, mastery list
and per-symbol statistics.  `letterStats` is total over strings with a
zero default, matching the per-letter initialisation. -/
structure AppState where
  currentLetterIndex : Nat
  attempts : Nat
  correctAttempts : Nat
  totalAttempts : Nat
  successfulSigns : Nat
  currentStreak : Nat
  lastPrediction : Option String
  predictionStabilityCount : Nat
  completedLetters : List String
  letterStats : String → LetterStat

/-- Initial values of the globals (script.js lines 25-45). -/
def initState : AppState where
  currentLetterIndex := 0
  attempts := 0
  correctAttempts := 0
  totalAttempts := 0
  successfulSigns := 0
  currentStreak := 0
  lastPrediction := none
  predictionStabilityCount := 0
  completedLetters := []
  letterStats := fun _ => ⟨0, 0, none⟩

/-- A decoded service message `{ready, predicted_action, confidence}`
(script.js lines 280-289). -/
structure Prediction where
  ready : Bool
  predicted_action : String
  confidence : ℚ
deriving Repr, DecidableEq

/-- `completeCurrentLetter` (script.js lines 393-410): add the current
letter to `completedLetters` and stamp `lastCompleted`, guarded by
`!completedLetters.includes(letter)`.  `now` stands for
`new Date().toISOString()`. -/
def completeCurrentLetter (now : Nat) (s : AppState) : AppState :=
  let letter := letters.getD s.currentLetterIndex ""
  if letter ∈ s.completedLetters then s
  else
    { s with
      completedLetters := s.completedLetters ++ [letter]
      letterStats := fun l =>
        if l = letter then { s.letterStats letter with lastCompleted := some now }
        else s.letterStats l }

/-- `handleCorrectSign` (script.js lines 320-362): guarded by
`if (correctAttempts >= REQUIRED_ATTEMPTS) return`, then increments the
round, global, streak and per-letter counters and, when the round is
now complete, calls `completeCurrentLetter`. -/
def handleCorrectSign (now : Nat) (s : AppState) : AppState :=
  let letter := letters.getD s.currentLetterIndex ""
  if REQUIRED_ATTEMPTS ≤ s.correctAttempts then s
  else
    let s1 : AppState :=
      { s with
        correctAttempts := s.correctAttempts + 1
        attempts := s.attempts + 1
        totalAttempts := s.totalAttempts + 1
        successfulSigns := s.successfulSigns + 1
        currentStreak := s.currentStreak + 1
        letterStats := fun l =>
          if l = letter then
            { s.letterStats letter with
              attempts := (s.letterStats letter).attempts + 1
              successes := (s.letterStats letter).successes + 1 }
          else s.letterStats l }
    if REQUIRED_ATTEMPTS ≤ s1.correctAttempts then completeCurrentLetter now s1
    else s1

/-- `handleIncorrectSign` (script.js lines 365-390): increments the
attempt counters, zeroes the streak and bumps the per-letter attempt
count.  The `detected` argument only feeds the feedback text. -/
def handleIncorrectSign (detected : String) (s : AppState) : AppState :=
  let _ := detected
  let letter := letters.getD s.currentLetterIndex ""
  { s with
    attempts := s.attempts + 1
    totalAttempts := s.totalAttempts + 1
    currentStreak := 0
    letterStats := fun l =>
      if l = letter then
        { s.letterStats letter with attempts := (s.letterStats letter).attempts + 1 }
      else s.letterStats l }

/-- The stability-state update of `handlePrediction` (script.js lines
292-297): increment the run counter when the detected display label
equals `lastPrediction`, otherwise restart the run at 1 for the new
label. -/
def stabilityUpdate (lastPred : Option String) (count : Nat) (detected : String) :
    Option String × Nat :=
  if lastPred = some detected then (lastPred, count + 1)
  else (some detected, 1)

/-- `handlePrediction` (script.js lines 277-317).  Returns the new state
together with `true` exactly when the stability/threshold branch fires,
i.e. when a confirmed observation is emitted to the progress tracker
(`handleCorrectSign` / `handleIncorrectSign` is invoked and the
stability state is reset to `{null, 0}`). -/
def handlePrediction (now : Nat) (d : Prediction) (s : AppState) : AppState × Bool :=
  if d.ready = false then (s, false)
  else
    let detected := toDisplay d.predicted_action
    let st := stabilityUpdate s.lastPrediction s.predictionStabilityCount detected
    let s1 : AppState := { s with lastPrediction := st.1, predictionStabilityCount := st.2 }
    if 3 ≤ s1.predictionStabilityCount ∧ THRESHOLD ≤ d.confidence then
      let expectedLetter := letters.getD s1.currentLetterIndex ""
      let s2 := if detected = expectedLetter then handleCorrectSign now s1
                else handleIncorrectSign detected s1
      ({ s2 with predictionStabilityCount := 0, lastPrediction := none }, true)
    else (s1, false)

/-- Process a list of service messages in arrival order, counting how
many confirmed observations `handlePrediction` emits. -/
def processList (now : Nat) (s : AppState) : List Prediction → AppState × Nat
  | [] => (s, 0)
  | d :: ds =>
    let r := handlePrediction now d s
    let rest := processList now r.1 ds
    (rest.1, (if r.2 then 1 else 0) + rest.2)

/-- The Stability Gate in isolation: the action of `handlePrediction`
on the pair `(lastPrediction, predictionStabilityCount)` together with
the emission flag (script.js lines 280, 292-297, 307, 313-315). -/
def gateStep (st : Option String × Nat) (d : Prediction) : (Option String × Nat) × Bool :=
  if d.ready = false then (st, false)
  else
    let st1 := stabilityUpdate st.1 st.2 (toDisplay d.predicted_action)
    if 3 ≤ st1.2 ∧ THRESHOLD ≤ d.confidence then ((none, 0), true)
    else (st1, false)

/-- Iterated `gateStep` over a message list, counting emissions. -/
def gateRun (st : Option String × Nat) : List Prediction → (Option String × Nat) × Nat
  | [] => (st, 0)
  | d :: ds =>
    let r := gateStep st d
    let rest := gateRun r.1 ds
    (rest.1, (if r.2 then 1 else 0) + rest.2)

/-- The stability-relevant projection of the session state. -/
def gateOf (s : AppState) : Option String × Nat :=
  (s.lastPrediction, s.predictionStabilityCount)

/-- The display labels of the accepted (ready) messages of a list, in
order; non-ready messages are discarded by `handlePrediction` without
touching any state. -/
def readyDisplays (ps : List Prediction) : List String :=
  (ps.filter (fun d => d.ready)).map (fun d => toDisplay d.predicted_action)

/-- `true` when the list contains three consecutive equal labels. -/
def hasRun3 : List String → Bool
  | a :: b :: c :: rest => if a = b ∧ b = c then true else hasRun3 (b :: c :: rest)
  | _ => false

/-- The letter-grid click handler (script.js lines 225-232): jump to an
arbitrary symbol, resetting the round counters but nothing else. -/
def jumpToLetter (i : Nat) (s : AppState) : AppState :=
  { s with currentLetterIndex := i, attempts := 0, correctAttempts := 0 }

/-- `moveToNextLetter` (script.js lines 436-455): advance the index;
past the end, either wrap to 0 on a confirmed restart or clamp to the
last index and return early — the early return skips the resets of
`attempts`, `correctAttempts`, `predictionStabilityCount` and
`lastPrediction` that every other path performs. -/
def moveToNextLetter (confirmRestart : Bool) (s : AppState) : AppState :=
  let s1 : AppState := { s with currentLetterIndex := s.currentLetterIndex + 1 }
  if letters.length ≤ s1.currentLetterIndex then
    if confirmRestart then
      { s1 with
        currentLetterIndex := 0
        attempts := 0
        correctAttempts := 0
        predictionStabilityCount := 0
        lastPrediction := none }
    else
      { s1 with currentLetterIndex := letters.length - 1 }
  else
    { s1 with
      attempts := 0
      correctAttempts := 0
      predictionStabilityCount := 0
      lastPrediction := none }

/-- An input to the session core: a service message or an explicit
navigation request (grid jump / next-or-skip button). -/
inductive SessionEvent where
  | pred (d : Prediction)
  | nextLetter (confirmRestart : Bool)
  | jump (i : Nat)

/-- One session step. -/
def stepEvent (now : Nat) (s : AppState) : SessionEvent → AppState
  | SessionEvent.pred d => (handlePrediction now d s).1
  | SessionEvent.nextLetter b => moveToNextLetter b s
  | SessionEvent.jump i => jumpToLetter i s

/-- Run a list of session events in order. -/
def runEvents (now : Nat) (s : AppState) (evs : List SessionEvent) : AppState :=
  evs.foldl (stepEvent now) s

/-! ## Connection manager and frame sampler (script.js lines 104-181) -/

/-- The `WebSocket.readyState` values. -/
inductive ConnState where
  | connecting | opened | closing | closedSt
deriving Repr, DecidableEq

/-- One WebSocket object, identified by creation order. -/
structure WSConn where
  id : Nat
  state : ConnState
deriving Repr, DecidableEq

/-- The connection-manager state: every WebSocket object created so
far, the object the `ws` variable currently refers to, the capture
timer (`captureTimer`), and the delays of the reconnect timeouts
scheduled so far. -/
structure ConnMgr where
  conns : List WSConn
  ws : Option Nat
  captureTimer : Bool
  reconnectDelays : List Nat
  nextId : Nat
deriving Repr, DecidableEq

/-- `initWebSocket` (script.js lines 104-137): unconditionally executes
`ws = new WebSocket(url)` — a fresh connection object in the
`connecting` state is created and the `ws` variable is repointed to it;
no existing connection is inspected or closed. -/
def initWebSocket (m : ConnMgr) : ConnMgr :=
  { m with
    conns := m.conns ++ [⟨m.nextId, ConnState.connecting⟩]
    ws := some m.nextId
    nextId := m.nextId + 1 }

/-- `ws && ws.readyState === WebSocket.OPEN`. -/
def wsIsOpen (m : ConnMgr) : Bool :=
  match m.ws with
  | none => false
  | some i =>
    ((m.conns.find? (fun c => c.id == i)).map
      (fun c => c.state == ConnState.opened)).getD false

/-- `stopCapturing` (script.js lines 176-181): clear the capture timer. -/
def stopCapturing (m : ConnMgr) : ConnMgr :=
  { m with captureTimer := false }

/-- The `ws.onclose` handler (script.js lines 131-136): stop capturing
and schedule one `setTimeout(initWebSocket, 2000)`. -/
def onClose (m : ConnMgr) : ConnMgr :=
  { stopCapturing m with reconnectDelays := m.reconnectDelays ++ [2000] }

/-- One tick of the capture loop (script.js lines 154-170): when the
connection is not open, stop capturing and send nothing; otherwise
draw, encode and send the frame.  The returned flag records whether a
frame was sent. -/
def captureTick (m : ConnMgr) : ConnMgr × Bool :=
  if wsIsOpen m = false then (stopCapturing m, false)
  else (m, true)

/-! ## Concrete states used to instantiate the theorems -/

/-- A ready observation of raw label `a_` at confidence 0.9. -/
def dA : Prediction := ⟨true, "a_", 0.9⟩

/-- A ready observation of raw label `a_` at confidence exactly 0.6. -/
def dA6 : Prediction := ⟨true, "a_", 0.6⟩

/-- A state whose current symbol (index 0) is already mastered. -/
def masteredState : AppState :=
  { initState with
    correctAttempts := 3
    completedLetters := ["à¶…"]
    lastPrediction := some "à¶…"
    predictionStabilityCount := 2 }

/-- A state sitting at the last symbol with a round and a run underway. -/
def ninthState : AppState :=
  { initState with
    currentLetterIndex := 9
    attempts := 2
    correctAttempts := 1
    lastPrediction := some "à¶…"
    predictionStabilityCount := 2 }

/-- A fresh state with a 2-long run for the first letter already seen. -/
def primedState : AppState :=
  { initState with lastPrediction := some "à¶…", predictionStabilityCount := 2 }

/-- A manager whose tracked connection is open and capturing. -/
def mgrOpen : ConnMgr :=
  { conns := [⟨0, ConnState.opened⟩], ws := some 0, captureTimer := true,
    reconnectDelays := [], nextId := 1 }

/-- A manager whose tracked connection has closed abruptly. -/
def mgrClosed : ConnMgr :=
  { conns := [⟨0, ConnState.closedSt⟩], ws := some 0, captureTimer := true,
    reconnectDelays := [], nextId := 1 }

/-! ## Helper lemmas -/

theorem thr_le_nine : THRESHOLD ≤ (0.9 : ℚ) := by norm_num [THRESHOLD]

theorem thr_le_six : THRESHOLD ≤ (0.6 : ℚ) := by norm_num [THRESHOLD]

theorem completeCurrentLetter_gateOf (now : Nat) (s : AppState) :
    gateOf (completeCurrentLetter now s) = gateOf s := by
  unfold completeCurrentLetter
  dsimp only
  split <;> rfl

theorem completeCurrentLetter_correct (now : Nat) (s : AppState) :
    (completeCurrentLetter now s).correctAttempts = s.correctAttempts := by
  unfold completeCurrentLetter
  dsimp only
  split <;> rfl

theorem completeCurrentLetter_index (now : Nat) (s : AppState) :
    (completeCurrentLetter now s).currentLetterIndex = s.currentLetterIndex := by
  unfold completeCurrentLetter
  dsimp only
  split <;> rfl

theorem completeCurrentLetter_mem (now : Nat) (s : AppState)
    (h : letters.getD s.currentLetterIndex "" ∈ s.completedLetters) :
    completeCurrentLetter now s = s := by
  unfold completeCurrentLetter
  exact if_pos h

theorem handleCorrectSign_saturated (now : Nat) (s : AppState)
    (h : REQUIRED_ATTEMPTS ≤ s.correctAttempts) :
    handleCorrectSign now s = s := by
  unfold handleCorrectSign
  exact if_pos h

theorem handleCorrectSign_gateOf (now : Nat) (s : AppState) :
    gateOf (handleCorrectSign now s) = gateOf s := by
  unfold handleCorrectSign
  dsimp only
  split
  · rfl
  · split
    · rw [completeCurrentLetter_gateOf]
      rfl
    · rfl

theorem handleCorrectSign_index (now : Nat) (s : AppState) :
    (handleCorrectSign now s).currentLetterIndex = s.currentLetterIndex := by
  unfold handleCorrectSign
  dsimp only
  split
  · rfl
  · split
    · rw [completeCurrentLetter_index]
    · rfl

theorem handleCorrectSign_correct (now : Nat) (s : AppState) :
    (handleCorrectSign now s).correctAttempts =
      if REQUIRED_ATTEMPTS ≤ s.correctAttempts then s.correctAttempts
      else s.correctAttempts + 1 := by
  unfold handleCorrectSign
  dsimp only
  split
  · rfl
  · split
    · rw [completeCurrentLetter_correct]
    · rfl

theorem handleCorrectSign_completed (now : Nat) (s : AppState)
    (h : letters.getD s.currentLetterIndex "" ∈ s.completedLetters) :
    (handleCorrectSign now s).completedLetters = s.completedLetters := by
  unfold handleCorrectSign
  dsimp only
  split
  · rfl
  · split
    · rw [completeCurrentLetter_mem]
      exact h
    · rfl

theorem handleIncorrectSign_gateOf (det : String) (s : AppState) :
    gateOf (handleIncorrectSign det s) = gateOf s := rfl

theorem handleIncorrectSign_correct (det : String) (s : AppState) :
    (handleIncorrectSign det s).correctAttempts = s.correctAttempts := rfl

theorem handlePrediction_gate (now : Nat) (d : Prediction) (s : AppState) :
    gateOf (handlePrediction now d s).1 = (gateStep (gateOf s) d).1 ∧
    (handlePrediction now d s).2 = (gateStep (gateOf s) d).2 := by
  unfold handlePrediction gateStep gateOf
  dsimp only
  split
  · exact ⟨rfl, rfl⟩
  · split
    · exact ⟨rfl, rfl⟩
    · exact ⟨rfl, rfl⟩

theorem processList_gate (now : Nat) (ps : List Prediction) (s : AppState) :
    gateOf (processList now s ps).1 = (gateRun (gateOf s) ps).1 ∧
    (processList now s ps).2 = (gateRun (gateOf s) ps).2 := by
  induction ps generalizing s with
  | nil => exact ⟨rfl, rfl⟩
  | cons d ds ih =>
    have h1 := handlePrediction_gate now d s
    have h2 := ih (handlePrediction now d s).1
    rw [h1.1] at h2
    unfold processList gateRun
    dsimp only
    rw [h1.2, h2.1, h2.2]
    exact ⟨rfl, rfl⟩

theorem replicate_append_cons (l : String) (t : List String) :
    ∀ j, List.replicate j l ++ l :: t = l :: (List.replicate j l ++ t) := by
  intro j
  induction j with
  | zero => rfl
  | succ j ih => simp only [List.replicate_succ, List.cons_append, ih]

theorem hasRun3_cons_false {y : String} {ys : List String}
    (h : hasRun3 (y :: ys) = false) : hasRun3 ys = false := by
  match ys with
  | [] => rfl
  | [b] => rfl
  | b :: c :: r =>
    unfold hasRun3 at h
    split at h
    · exact absurd h (by simp)
    · exact h

theorem hasRun3_suffix {t : List String} :
    ∀ {a : List String}, hasRun3 (a ++ t) = false → hasRun3 t = false := by
  intro a
  induction a with
  | nil => intro h; exact h
  | cons x xs ih =>
    intro h
    exact ih (hasRun3_cons_false h)

theorem hasRun3_rep_cons (l : String) (t : List String) (k : Nat) (hk : 2 ≤ k) :
    hasRun3 (List.replicate k l ++ l :: t) = true := by
  obtain ⟨j, rfl⟩ : ∃ j, k = j + 2 := ⟨k - 2, by omega⟩
  have e : List.replicate (j + 2) l ++ l :: t
      = l :: l :: l :: (List.replicate j l ++ t) := by
    simp only [List.replicate_succ, List.cons_append, replicate_append_cons]
  rw [e]
  unfold hasRun3
  simp

/-- A projection of the stability state to the run of labels it stands
for: `(some l, k)` is reached by `k` consecutive observations of `l`. -/
def gatePad : Option String × Nat → List String
  | (none, _) => []
  | (some l, k) => List.replicate k l

theorem gateRun_no_run3 :
    ∀ (ps : List Prediction) (st : Option String × Nat),
      hasRun3 (gatePad st ++ readyDisplays ps) = false →
      (gateRun st ps).2 = 0 := by
  intro ps
  induction ps with
  | nil => intro st h; rfl
  | cons d ds ih =>
    intro st h
    by_cases hr : d.ready = false
    · have hstep : gateStep st d = (st, false) := by simp [gateStep, hr]
      have hd : readyDisplays (d :: ds) = readyDisplays ds := by
        simp [readyDisplays, hr]
      unfold gateRun
      rw [hstep]
      dsimp only
      rw [hd] at h
      rw [ih st h]
      simp
    · have hr' : d.ready = true := by
        cases hb : d.ready
        · exact absurd hb hr
        · rfl
      have hd : readyDisplays (d :: ds)
          = toDisplay d.predicted_action :: readyDisplays ds := by
        simp [readyDisplays, hr']
      rw [hd] at h
      obtain ⟨x, k⟩ := st
      by_cases hm : x = some (toDisplay d.predicted_action)
      · -- consecutive identical display label: the run grows
        subst hm
        by_cases hcond : 3 ≤ k + 1 ∧ THRESHOLD ≤ d.confidence
        · -- an emission would need a visible 3-run, contradicting `h`
          exfalso
          have h2k : 2 ≤ k := by omega
          have htrue : hasRun3 (gatePad (some (toDisplay d.predicted_action), k) ++
              toDisplay d.predicted_action :: readyDisplays ds) = true :=
            hasRun3_rep_cons _ _ k h2k
          rw [htrue] at h
          exact absurd h (by simp)
        · have hstep : gateStep (some (toDisplay d.predicted_action), k) d
              = ((some (toDisplay d.predicted_action), k + 1), false) := by
            unfold gateStep stabilityUpdate
            rw [if_neg (show ¬d.ready = false by simp [hr'])]
            dsimp only
            rw [if_pos rfl]
            dsimp only
            rw [if_neg hcond]
          -- the carried run and the head label fuse into one replicate
          have e : gatePad (some (toDisplay d.predicted_action), k + 1)
                ++ readyDisplays ds
              = gatePad (some (toDisplay d.predicted_action), k) ++
                toDisplay d.predicted_action :: readyDisplays ds := by
            dsimp only [gatePad]
            rw [replicate_append_cons, List.replicate_succ, List.cons_append]
          have hinv : hasRun3 (gatePad (some (toDisplay d.predicted_action), k + 1)
                ++ readyDisplays ds) = false := by
            rw [e]
            exact h
          unfold gateRun
          rw [hstep]
          dsimp only
          rw [ih _ hinv]
          simp
      · -- a differing label restarts the run at 1, never emitting
        have hstep : gateStep (x, k) d
            = ((some (toDisplay d.predicted_action), 1), false) := by
          unfold gateStep stabilityUpdate
          rw [if_neg (show ¬d.ready = false by simp [hr'])]
          dsimp only
          rw [if_neg hm]
          dsimp only
          rw [if_neg (show ¬(3 ≤ 1 ∧ THRESHOLD ≤ d.confidence) by simp)]
        have hsuf : hasRun3 (toDisplay d.predicted_action :: readyDisplays ds) = false :=
          hasRun3_suffix h
        have hinv : hasRun3 (gatePad (some (toDisplay d.predicted_action), 1)
              ++ readyDisplays ds) = false := by
          dsimp only [gatePad]
          exact hsuf
        unfold gateRun
        rw [hstep]
        dsimp only
        rw [ih _ hinv]
        simp

theorem gateRun_replicate (d : Prediction) (hr : d.ready = true)
    (hc : THRESHOLD ≤ d.confidence) :
    ∀ n c, (gateRun (none, c) (List.replicate n d)).2 = n / 3 := by
  intro n
  induction n using Nat.strong_induction_on with
  | _ n ih =>
    intro c
    match n with
    | 0 => rfl
    | 1 => simp [gateRun, gateStep, stabilityUpdate, hr]
    | 2 => simp [gateRun, gateStep, stabilityUpdate, hr]
    | (m + 3) =>
      have h3 : (gateRun ((none : Option String), c)
            (List.replicate (m + 3) d)).2
          = 1 + (gateRun ((none : Option String), 0) (List.replicate m d)).2 := by
        show (gateRun (none, c) (d :: d :: d :: List.replicate m d)).2 = _
        simp [gateRun, gateStep, stabilityUpdate, hr, hc]
      rw [h3, ih m (by omega) 0]
      have := Nat.add_div_right m (show 0 < 3 by norm_num)
      omega

theorem handleCorrectSign_correct_le (now : Nat) (s : AppState)
    (h : s.correctAttempts ≤ REQUIRED_ATTEMPTS) :
    (handleCorrectSign now s).correctAttempts ≤ REQUIRED_ATTEMPTS := by
  rw [handleCorrectSign_correct]
  split
  · exact h
  · rename_i hlt
    unfold REQUIRED_ATTEMPTS at hlt ⊢
    omega

theorem stepEvent_correct_le (now : Nat) (s : AppState) (ev : SessionEvent)
    (h : s.correctAttempts ≤ REQUIRED_ATTEMPTS) :
    (stepEvent now s ev).correctAttempts ≤ REQUIRED_ATTEMPTS := by
  cases ev with
  | pred d =>
    show ((handlePrediction now d s).1).correctAttempts ≤ REQUIRED_ATTEMPTS
    unfold handlePrediction
    dsimp only
    split
    · exact h
    · split
      · dsimp only
        split
        · exact handleCorrectSign_correct_le now _ h
        · exact h
      · exact h
  | nextLetter b =>
    show (moveToNextLetter b s).correctAttempts ≤ REQUIRED_ATTEMPTS
    unfold moveToNextLetter
    dsimp only
    split
    · split
      · exact Nat.zero_le _
      · exact h
    · exact Nat.zero_le _
  | jump i => exact Nat.zero_le _

theorem runEvents_correct_le (now : Nat) (evs : List SessionEvent) :
    ∀ s : AppState, s.correctAttempts ≤ REQUIRED_ATTEMPTS →
      (runEvents now s evs).correctAttempts ≤ REQUIRED_ATTEMPTS := by
  induction evs with
  | nil => intro s h; exact h
  | cons e es ih =>
    intro s h
    exact ih (stepEvent now s e) (stepEvent_correct_le now s e h)

/-! ## The claims -/

/-- C1 counterexample: a single unbroken run of 6 identical
high-confidence (0.9) ready observations from the initial state makes
`handlePrediction` fire twice (at the 3rd and 6th observation), not
once: the run of 6 yields two confirmed observations. -/
theorem run_of_six_emits_twice :
    (processList 0 initState (List.replicate 6 dA)).2 = 2 := by
  simp [processList, handlePrediction, stabilityUpdate, toDisplay, englishToSinhala,
        List.lookup, letters, handleCorrectSign, handleIncorrectSign, completeCurrentLetter,
        initState, REQUIRED_ATTEMPTS, dA, thr_le_nine, List.replicate]

/-- C1 amended: for an unbroken sequence of `n` identical ready
observations with confidence ≥ 0.6, starting from a fresh stability
state, the Stability Gate emits exactly `n / 3` confirmed observations
— one per 3 consecutive observations of the run, not one per run
(runs of length 3 to 5 yield exactly one; a run of 6 yields two). -/
theorem run_emits_one_per_three (now : Nat) (d : Prediction) (s : AppState) (n : Nat)
    (hr : d.ready = true) (hc : THRESHOLD ≤ d.confidence)
    (h0 : s.lastPrediction = none) :
    (processList now s (List.replicate n d)).2 = n / 3 := by
  rw [(processList_gate now (List.replicate n d) s).2]
  have hg : gateOf s = (none, s.predictionStabilityCount) := by
    unfold gateOf
    rw [h0]
  rw [hg]
  exact gateRun_replicate d hr hc n s.predictionStabilityCount

/-- Witness for C1's amended theorem at a run of length 4: exactly one
confirmed observation. -/
theorem run_emits_one_per_three_witness :
    dA.ready = true ∧ THRESHOLD ≤ dA.confidence ∧ initState.lastPrediction = none ∧
    (processList 0 initState (List.replicate 4 dA)).2 = 1 := by
  refine ⟨rfl, thr_le_nine, rfl, ?_⟩
  have h := run_emits_one_per_three 0 dA initState 4 rfl thr_le_nine rfl
  simpa using h

/-- C2: for every accepted (ready) observation, a confirmed observation
is emitted iff, after the run-counter update (increment on equal label,
restart at 1 otherwise), the run length is ≥ 3 and the confidence is
≥ 0.6 (exact equality with 0.6 included); on emission the stability
state is reset to `{null, 0}`; and over any observation sequence whose
ready display labels never hold 3 consecutive equal values, nothing is
ever emitted. -/
theorem gate_emit_iff :
    (∀ (now : Nat) (d : Prediction) (s : AppState), d.ready = true →
      (((handlePrediction now d s).2 = true) ↔
        (3 ≤ (stabilityUpdate s.lastPrediction s.predictionStabilityCount
                (toDisplay d.predicted_action)).2 ∧
         THRESHOLD ≤ d.confidence)) ∧
      ((handlePrediction now d s).2 = true →
        (handlePrediction now d s).1.lastPrediction = none ∧
        (handlePrediction now d s).1.predictionStabilityCount = 0)) ∧
    (∀ (now : Nat) (ps : List Prediction) (s : AppState),
      s.lastPrediction = none → hasRun3 (readyDisplays ps) = false →
      (processList now s ps).2 = 0) := by
  constructor
  · intro now d s hr
    unfold handlePrediction
    rw [if_neg (show ¬d.ready = false by simp [hr])]
    dsimp only
    by_cases hcond : 3 ≤ (stabilityUpdate s.lastPrediction s.predictionStabilityCount
        (toDisplay d.predicted_action)).2 ∧ THRESHOLD ≤ d.confidence
    · rw [if_pos hcond]
      exact ⟨by simpa using hcond, fun _ => ⟨rfl, rfl⟩⟩
    · rw [if_neg hcond]
      constructor
      · constructor
        · intro hfalse
          exact absurd hfalse (by simp)
        · intro hc
          exact absurd hc hcond
      · intro hfalse
        exact absurd hfalse (by simp)
  · intro now ps s h0 hrun
    rw [(processList_gate now ps s).2]
    apply gateRun_no_run3
    have hpad : gatePad (gateOf s) = [] := by
      show gatePad (s.lastPrediction, s.predictionStabilityCount) = []
      rw [h0]
      rfl
    rw [hpad]
    simpa using hrun

/-- Witness for C2 at confidence exactly 0.6: from a 2-long run the
next matching observation at the threshold emits and resets. -/
theorem gate_emit_iff_witness :
    dA6.ready = true ∧
    (handlePrediction 0 dA6 primedState).2 = true ∧
    (handlePrediction 0 dA6 primedState).1.lastPrediction = none ∧
    (handlePrediction 0 dA6 primedState).1.predictionStabilityCount = 0 := by
  have h := gate_emit_iff.1 0 dA6 primedState rfl
  have hemit : (handlePrediction 0 dA6 primedState).2 = true := by
    apply h.1.mpr
    constructor
    · simp [primedState, initState, stabilityUpdate, toDisplay, englishToSinhala,
        List.lookup, dA6]
    · exact thr_le_six
  exact ⟨rfl, hemit, (h.2 hemit).1, (h.2 hemit).2⟩

/-- C3 counterexample: invoking `initWebSocket` while the tracked
connection is Open does not leave the existing connection alone — it
creates a second, concurrent connection object and repoints `ws`. -/
theorem reconnect_while_open_adds_conn :
    wsIsOpen mgrOpen = true ∧
    (initWebSocket mgrOpen).conns =
      [⟨0, ConnState.opened⟩, ⟨1, ConnState.connecting⟩] ∧
    (initWebSocket mgrOpen).ws = some 1 ∧
    (initWebSocket mgrOpen).ws ≠ mgrOpen.ws := by
  refine ⟨rfl, rfl, rfl, by decide⟩

/-- C3 amended: a connect request is never ignored — in every state,
including while the tracked connection is Connecting or Open,
`initWebSocket` creates a fresh connection object (in Connecting state)
alongside all existing ones and repoints the `ws` handle to it, so a
reconnect while Connecting/Open yields a second concurrent
connection. -/
theorem initWebSocket_always_creates_conn (m : ConnMgr) :
    (initWebSocket m).conns = m.conns ++ [⟨m.nextId, ConnState.connecting⟩] ∧
    (initWebSocket m).ws = some m.nextId ∧
    (initWebSocket m).nextId = m.nextId + 1 :=
  ⟨rfl, rfl, rfl⟩

/-- C4 counterexample: declining the restart at the last symbol clamps
the index but, due to the early return, leaves `attempts`,
`correctAttempts` and the stability state untouched (the claim says
they are reset as for any advance). -/
theorem decline_keeps_round_counters :
    (moveToNextLetter false ninthState).currentLetterIndex = 9 ∧
    (moveToNextLetter false ninthState).attempts = 2 ∧
    (moveToNextLetter false ninthState).correctAttempts = 1 ∧
    (moveToNextLetter false ninthState).predictionStabilityCount = 2 ∧
    (moveToNextLetter false ninthState).lastPrediction = some "à¶…" := by
  refine ⟨rfl, rfl, rfl, rfl, rfl⟩

/-- C4 amended: an ordinary advance, and the wrap to the first symbol
on explicit confirmation, reset the round counters and the stability
state; the clamp at the last symbol on decline resets nothing — it only
clamps the index. -/
theorem moveToNextLetter_behavior (b : Bool) (s : AppState) :
    (s.currentLetterIndex + 1 < letters.length →
      moveToNextLetter b s =
        { s with currentLetterIndex := s.currentLetterIndex + 1, attempts := 0,
                 correctAttempts := 0, predictionStabilityCount := 0,
                 lastPrediction := none }) ∧
    (letters.length ≤ s.currentLetterIndex + 1 →
      moveToNextLetter true s =
        { s with currentLetterIndex := 0, attempts := 0, correctAttempts := 0,
                 predictionStabilityCount := 0, lastPrediction := none } ∧
      moveToNextLetter false s =
        { s with currentLetterIndex := letters.length - 1 }) := by
  constructor
  · intro h
    unfold moveToNextLetter
    dsimp only
    rw [if_neg (by omega)]
  · intro h
    constructor
    · unfold moveToNextLetter
      dsimp only
      rw [if_pos h, if_pos rfl]
    · unfold moveToNextLetter
      dsimp only
      rw [if_pos h]
      rfl

/-- Witness for C4's amended theorem: an ordinary advance from the
initial state, and both outcomes from the last symbol. -/
theorem moveToNextLetter_behavior_witness :
    (initState.currentLetterIndex + 1 < letters.length ∧
      moveToNextLetter true initState = { initState with currentLetterIndex := 1 }) ∧
    (letters.length ≤ ninthState.currentLetterIndex + 1 ∧
      moveToNextLetter false ninthState =
        { ninthState with currentLetterIndex := letters.length - 1 }) := by
  constructor
  · refine ⟨by decide, ?_⟩
    exact (moveToNextLetter_behavior true initState).1 (by decide)
  · refine ⟨by decide, ?_⟩
    exact ((moveToNextLetter_behavior false ninthState).2 (by decide)).2

/-- C5: mastery is idempotent — completing an already-mastered current
symbol is a full no-op (in particular `completedLetters` and
`successfulSigns` are unchanged), and re-practicing a mastered symbol
after a grid jump back to it leaves `completedLetters` unchanged when
the mastery transition fires again. -/
theorem mastery_idempotent (now : Nat) (s : AppState) (i : Nat)
    (hcur : letters.getD s.currentLetterIndex "" ∈ s.completedLetters)
    (hi : letters.getD i "" ∈ s.completedLetters) :
    completeCurrentLetter now s = s ∧
    (handleCorrectSign now (handleCorrectSign now (handleCorrectSign now
        (jumpToLetter i s)))).completedLetters = s.completedLetters := by
  constructor
  · exact completeCurrentLetter_mem now s hcur
  · have mem0 : letters.getD (jumpToLetter i s).currentLetterIndex ""
        ∈ (jumpToLetter i s).completedLetters := hi
    have c1 := handleCorrectSign_completed now (jumpToLetter i s) mem0
    have i1 := handleCorrectSign_index now (jumpToLetter i s)
    have mem1 : letters.getD (handleCorrectSign now (jumpToLetter i s)).currentLetterIndex ""
        ∈ (handleCorrectSign now (jumpToLetter i s)).completedLetters := by
      rw [c1, i1]
      exact mem0
    have c2 := handleCorrectSign_completed now _ mem1
    have i2 := handleCorrectSign_index now (handleCorrectSign now (jumpToLetter i s))
    have mem2 : letters.getD (handleCorrectSign now (handleCorrectSign now
          (jumpToLetter i s))).currentLetterIndex ""
        ∈ (handleCorrectSign now (handleCorrectSign now
          (jumpToLetter i s))).completedLetters := by
      rw [c2, i2]
      exact mem1
    have c3 := handleCorrectSign_completed now _ mem2
    rw [c3, c2, c1]
    rfl

/-- Witness for C5 at a state whose first symbol is mastered. -/
theorem mastery_idempotent_witness :
    (letters.getD masteredState.currentLetterIndex ""
        ∈ masteredState.completedLetters) ∧
    completeCurrentLetter 0 masteredState = masteredState ∧
    (handleCorrectSign 0 (handleCorrectSign 0 (handleCorrectSign 0
        (jumpToLetter 0 masteredState)))).completedLetters
      = masteredState.completedLetters := by
  have h := mastery_idempotent 0 masteredState 0 (by decide) (by decide)
  exact ⟨by decide, h.1, h.2⟩

/-- C6: `correctAttempts` never exceeds `REQUIRED_ATTEMPTS` under any
sequence of observations and navigation events, and once it has
reached the constant a further matching confirmed observation is a
complete no-op (saturation). -/
theorem correct_never_exceeds (now : Nat) (s : AppState) (evs : List SessionEvent)
    (h : s.correctAttempts ≤ REQUIRED_ATTEMPTS) :
    (runEvents now s evs).correctAttempts ≤ REQUIRED_ATTEMPTS ∧
    (REQUIRED_ATTEMPTS ≤ s.correctAttempts → handleCorrectSign now s = s) :=
  ⟨runEvents_correct_le now evs s h, fun hm => handleCorrectSign_saturated now s hm⟩

/-- Witness for C6 at a saturated state fed one more matching
observation. -/
theorem correct_never_exceeds_witness :
    masteredState.correctAttempts ≤ REQUIRED_ATTEMPTS ∧
    (runEvents 0 masteredState [SessionEvent.pred dA]).correctAttempts
      ≤ REQUIRED_ATTEMPTS ∧
    handleCorrectSign 0 masteredState = masteredState := by
  have h := correct_never_exceeds 0 masteredState [SessionEvent.pred dA] (by decide)
  exact ⟨by decide, h.1, h.2 (by decide)⟩

/-- C7: while the current symbol is mastered
(`correctAttempts ≥ REQUIRED_ATTEMPTS`), a further observation whose
display label matches the current symbol leaves every progress field —
attempts, correctAttempts, totalAttempts, successfulSigns, streak,
mastery list and per-symbol statistics — unchanged. -/
theorem mastered_ignores_confirmed (now : Nat) (d : Prediction) (s : AppState)
    (hm : REQUIRED_ATTEMPTS ≤ s.correctAttempts)
    (hmatch : toDisplay d.predicted_action = letters.getD s.currentLetterIndex "") :
    (handlePrediction now d s).1.attempts = s.attempts ∧
    (handlePrediction now d s).1.correctAttempts = s.correctAttempts ∧
    (handlePrediction now d s).1.totalAttempts = s.totalAttempts ∧
    (handlePrediction now d s).1.successfulSigns = s.successfulSigns ∧
    (handlePrediction now d s).1.currentStreak = s.currentStreak ∧
    (handlePrediction now d s).1.completedLetters = s.completedLetters ∧
    (handlePrediction now d s).1.letterStats = s.letterStats := by
  unfold handlePrediction
  dsimp only
  split
  · exact ⟨rfl, rfl, rfl, rfl, rfl, rfl, rfl⟩
  · split
    · have hs := handleCorrectSign_saturated now
        { s with
          lastPrediction := (stabilityUpdate s.lastPrediction
            s.predictionStabilityCount (toDisplay d.predicted_action)).1
          predictionStabilityCount := (stabilityUpdate s.lastPrediction
            s.predictionStabilityCount (toDisplay d.predicted_action)).2 } hm
      rw [hs]
      exact ⟨rfl, rfl, rfl, rfl, rfl, rfl, rfl⟩
    · exact ⟨rfl, rfl, rfl, rfl, rfl, rfl, rfl⟩

/-- Witness for C7: a matching high-confidence observation on a
mastered current symbol changes nothing. -/
theorem mastered_ignores_confirmed_witness :
    REQUIRED_ATTEMPTS ≤ masteredState.correctAttempts ∧
    (handlePrediction 0 dA masteredState).1.correctAttempts
      = masteredState.correctAttempts ∧
    (handlePrediction 0 dA masteredState).1.successfulSigns
      = masteredState.successfulSigns ∧
    (handlePrediction 0 dA masteredState).1.completedLetters
      = masteredState.completedLetters := by
  have h := mastered_ignores_confirmed 0 dA masteredState (by decide)
    (by simp [toDisplay, englishToSinhala, List.lookup, dA, masteredState,
      initState, letters])
  exact ⟨by decide, h.2.1, h.2.2.2.1, h.2.2.2.2.2.1⟩

/-- C8: the `onclose` handler stops the capture timer and schedules
exactly one reconnect with a fixed 2000 ms delay; and a capture tick
sends no frame whenever the connection is not Open. -/
theorem close_halts_and_schedules :
    (∀ m : ConnMgr, onClose m =
      { m with captureTimer := false,
               reconnectDelays := m.reconnectDelays ++ [2000] }) ∧
    (∀ m : ConnMgr, wsIsOpen m = false →
      captureTick m = ({ m with captureTimer := false }, false)) := by
  constructor
  · intro m; rfl
  · intro m h
    unfold captureTick
    rw [if_pos h]
    rfl

/-- Witness for C8 on a manager whose connection has closed. -/
theorem close_halts_and_schedules_witness :
    wsIsOpen mgrClosed = false ∧
    captureTick mgrClosed = ({ mgrClosed with captureTimer := false }, false) ∧
    onClose mgrClosed =
      { mgrClosed with captureTimer := false,
                       reconnectDelays := mgrClosed.reconnectDelays ++ [2000] } := by
  exact ⟨by decide, close_halts_and_schedules.2 mgrClosed (by decide),
    close_halts_and_schedules.1 mgrClosed⟩

/-- C9: the run-length comparison is performed on the mapped display
label: whenever two raw labels have the same display form, the second
extends the first's run exactly as an identical label would; and
unmapped raw labels fall back to their raw value. -/
theorem stability_uses_mapped_label :
    (∀ (r1 r2 : String) (k : Nat), toDisplay r1 = toDisplay r2 →
      stabilityUpdate (some (toDisplay r1)) k (toDisplay r2)
        = (some (toDisplay r1), k + 1)) ∧
    (∀ raw : String, englishToSinhala.lookup raw = none → toDisplay raw = raw) := by
  constructor
  · intro r1 r2 k h
    unfold stabilityUpdate
    rw [if_pos (by rw [h])]
  · intro raw h
    unfold toDisplay
    rw [h]
    rfl

/-- Witness for C9: the distinct raw labels `a_` (mapped) and `à¶…`
(unmapped, passed through) share the display form `à¶…`, so the second
extends the first's run. -/
theorem stability_uses_mapped_label_witness :
    ("a_" ≠ "à¶…") ∧ toDisplay "a_" = toDisplay "à¶…" ∧
    stabilityUpdate (some (toDisplay "a_")) 1 (toDisplay "à¶…")
      = (some (toDisplay "a_"), 2) ∧
    englishToSinhala.lookup "à¶…" = none ∧ toDisplay "à¶…" = "à¶…" := by
  refine ⟨by decide, by decide, ?_, by decide, ?_⟩
  · exact stability_uses_mapped_label.1 "a_" "à¶…" 1 (by decide)
  · exact stability_uses_mapped_label.2 "à¶…" (by decide)

/-- C10: a grid jump resets the round counters but leaves the
stability state untouched, so a run of 2 begun before the jump is
completed by a single matching observation after the jump, emitting a
confirmed observation that is scored against the newly selected
symbol. -/
theorem jump_keeps_stability :
    (∀ (i : Nat) (s : AppState),
      (jumpToLetter i s).lastPrediction = s.lastPrediction ∧
      (jumpToLetter i s).predictionStabilityCount = s.predictionStabilityCount ∧
      (jumpToLetter i s).attempts = 0 ∧
      (jumpToLetter i s).correctAttempts = 0 ∧
      (jumpToLetter i s).currentLetterIndex = i) ∧
    (∀ (now : Nat) (d : Prediction) (s : AppState) (i : Nat),
      d.ready = true → THRESHOLD ≤ d.confidence →
      s.lastPrediction = some (toDisplay d.predicted_action) →
      s.predictionStabilityCount = 2 →
      toDisplay d.predicted_action = letters.getD i "" →
      (handlePrediction now d (jumpToLetter i s)).2 = true ∧
      (handlePrediction now d (jumpToLetter i s)).1.correctAttempts = 1) := by
  constructor
  · intro i s
    exact ⟨rfl, rfl, rfl, rfl, rfl⟩
  · intro now d s i hr hc hlast hcount hmatch
    have hupd : stabilityUpdate s.lastPrediction s.predictionStabilityCount
        (toDisplay d.predicted_action) = (some (toDisplay d.predicted_action), 3) := by
      rw [hlast, hcount]
      unfold stabilityUpdate
      rw [if_pos rfl]
    unfold handlePrediction jumpToLetter
    rw [if_neg (show ¬d.ready = false by simp [hr])]
    dsimp only
    rw [hupd]
    dsimp only
    rw [if_pos (And.intro (le_refl 3) hc), if_pos hmatch]
    refine ⟨rfl, ?_⟩
    dsimp only
    rw [handleCorrectSign_correct]
    simp [REQUIRED_ATTEMPTS]

/-- Witness for C10: from a 2-long run for the first letter, jumping
to index 0 and feeding one matching observation confirms at once. -/
theorem jump_keeps_stability_witness :
    (jumpToLetter 0 primedState).predictionStabilityCount = 2 ∧
    (handlePrediction 0 dA (jumpToLetter 0 primedState)).2 = true ∧
    (handlePrediction 0 dA (jumpToLetter 0 primedState)).1.correctAttempts = 1 := by
  have h := jump_keeps_stability.2 0 dA primedState 0 rfl thr_le_nine
    (by simp [primedState, initState, toDisplay, englishToSinhala, List.lookup, dA])
    rfl
    (by simp [toDisplay, englishToSinhala, List.lookup, dA, letters])
  exact ⟨rfl, h.1, h.2⟩


end SLLMS
